import Mathlib

/-!
Verification of the VectorDB_Tools ingestion pipeline
(`src/app/schema_manager.py`, `src/app/milvus_uploader.py`).

The Python source is shallowly embedded: field dictionaries become the
`Field` structure (optional keys become `Option`), Python values that
appear in JSON records become `PyVal` (floats are modelled as rationals;
none of the verified properties inspect float arithmetic), fallible
functions return `Except`, and the stateful ingestion loop is a fold
over an explicit `IngestState`.  Calls into the external storage engine
(`pymilvus`) are modelled from the engine interface in the spec
(`insert(container, columnBatch) -> insertedCount`, `has_container`,
`create_container`, `create_index`, `connect`).
-/

namespace VDB

/-- Python/JSON values as they appear in a parsed JSONL record.
Floats are modelled as rationals; no property below depends on
floating-point rounding. -/
inductive PyVal where
  | vnull
  | vbool (b : Bool)
  | vint (n : Int)
  | vfloat (q : Rat)
  | vstr (s : String)
  | vlist (xs : List PyVal)

/-- One entry of a schema's `fields` JSON list
(`src/app/models/models.py`, used as an open dict by the validator and
mapper).  Keys that the code reads with `.get` and a default are plain
values; `is_vector` keeps the `None`/`False` distinction the validator
inspects (`schema_manager.py:197`), and `dim` may be absent.
`auto_generate` is carried because the spec mentions it; no code under
`src/app` reads it. -/
structure Field where
  name : String
  type : String
  is_primary : Bool := false
  is_vector : Option Bool := none
  dim : Option Int := none
  max_length : Option Int := none
  auto_generate : Bool := false
  deriving DecidableEq

/-- `field.get('is_vector', False)` truthiness. -/
def isVecFlag (f : Field) : Bool := f.is_vector.getD false

/-- The closed type set of `validate_schema_definition`
(`schema_manager.py:157`). -/
def validTypes : List String := ["str", "int", "float", "bool", "vector<float>"]

/-- Error taxonomy of `validate_schema_definition`; constructors carry
the data the Python error messages mention. -/
inductive ValErr where
  | emptyList
  | nameRequired (index : Nat)
  | typeRequired (name : String)
  | duplicateName (name : String)
  | invalidType (name ty : String)
  | pkType (name : String)
  | vectorTypeStr (name : String)
  | vectorDim (name : String)
  | vectorFlagMissing (name : String)
  | dimOnNonVector (name : String)
  | noPrimaryKey
  | multiplePrimaryKeys
  deriving DecidableEq

/-- The checks `validate_schema_definition` runs on one field
(`schema_manager.py:160-204`), in source order: required name and type,
duplicate name against the `field_names` set built so far, closed type
set, primary-key type, vector-flag/dim checks, missing `is_vector` on a
vector-marker type, and `dim` on a non-vector field.  Returns the first
raised error, or `none` when the field passes. -/
def checkField (i : Nat) (f : Field) (seen : List String) : Option ValErr :=
  if f.name = "" then some (.nameRequired i)
  else if f.type = "" then some (.typeRequired f.name)
  else if seen.contains f.name then some (.duplicateName f.name)
  else if ¬ validTypes.contains f.type then some (.invalidType f.name f.type)
  else if f.is_primary ∧ ¬ (f.type = "int" ∨ f.type = "str") then some (.pkType f.name)
  else if isVecFlag f then
    if f.type ≠ "vector<float>" then some (.vectorTypeStr f.name)
    else
      match f.dim with
      | none => some (.vectorDim f.name)
      | some d => if d ≤ 0 then some (.vectorDim f.name) else none
  else if f.is_vector = none ∧ f.type = "vector<float>" then some (.vectorFlagMissing f.name)
  else if f.dim ≠ none then some (.dimOnNonVector f.name)
  else none

/-- The field loop of `validate_schema_definition`: `seen` is the
`field_names` set, `pk` the running primary-key count, returned at the
end.  (In the source the count is incremented just before the vector
checks; since a raise aborts the whole loop and discards the count,
threading the increment into the success continuation is observationally
identical.) -/
def validateLoop : List Field → Nat → List String → Nat → Except ValErr Nat
  | [], _, _, pk => .ok pk
  | f :: rest, i, seen, pk =>
    match checkField i f seen with
    | some e => .error e
    | none => validateLoop rest (i + 1) (f.name :: seen) (if f.is_primary then pk + 1 else pk)

/-- `validate_schema_definition` (`schema_manager.py:149-215`). -/
def validate_schema_definition (fields : List Field) : Except ValErr Unit :=
  if fields = [] then .error .emptyList
  else
    match validateLoop fields 0 [] 0 with
    | .error e => .error e
    | .ok pk =>
      if pk = 0 then .error .noPrimaryKey
      else if pk > 1 then .error .multiplePrimaryKeys
      else .ok ()

/-- `Except.isOk` as a plain Bool helper. -/
def isOkE {ε α : Type} : Except ε α → Bool
  | .ok _ => true
  | .error _ => false

/-- Number of fields with `is_primary = true`. -/
def countPrim (fields : List Field) : Nat := (fields.filter Field.is_primary).length

/-- A stored schema row (`SchemaModel` in `src/app/models/models.py`):
name, optional description, and the JSON field list. -/
structure SchemaModel where
  name : String
  description : Option String := none
  fields : List Field
  deriving DecidableEq

/-- The `pymilvus.DataType` tags that `map_schema_to_milvus` can emit. -/
inductive DType where
  | UNKNOWN
  | BOOL
  | INT64
  | FLOAT
  | VARCHAR
  | FLOAT_VECTOR
  deriving DecidableEq

/-- A mapped engine field (`pymilvus.FieldSchema` as constructed in
`milvus_uploader.py:130`): concrete type tag plus the kwargs the code
passes (`dim`, `max_length`, `is_primary`, `auto_id`). -/
structure FieldSchema where
  name : String
  dtype : DType
  dim : Option Int := none
  max_length : Option Int := none
  is_primary : Bool := false
  auto_id : Bool := false
  deriving DecidableEq

/-- A mapped engine schema (`pymilvus.CollectionSchema` as constructed
in `milvus_uploader.py:153`). -/
structure CollectionSchema where
  fields : List FieldSchema
  description : String
  primary_field : Option String
  auto_id : Bool
  deriving DecidableEq

/-- Error taxonomy of `map_schema_to_milvus` (each `ValueError` raise
site in `milvus_uploader.py:59-153`). -/
inductive MapErr where
  | noFields (schema : String)
  | invalidField (schema fname : String)
  | vectorTypeStr (fname tstr : String)
  | vectorDim (fname : String)
  | unsupportedType (fname tstr : String)
  | multiplePrimaryKeys (schema : String)
  | pkTypeInvalid (fname : String)
  | noPrimaryKey (schema : String)
  deriving DecidableEq

/-- The type-determination if/elif chain of `map_schema_to_milvus`
(`milvus_uploader.py:87-112`): yields the Milvus type, the `dim` and
`max_length` kwargs, and whether the field counted as a vector field. -/
def mapOne (f : Field) : Except MapErr (DType × Option Int × Option Int × Bool) :=
  if isVecFlag f then
    if f.type ≠ "vector<float>" then .error (.vectorTypeStr f.name f.type)
    else
      match f.dim with
      | none => .error (.vectorDim f.name)
      | some d =>
        if d ≤ 0 then .error (.vectorDim f.name)
        else .ok (.FLOAT_VECTOR, some d, none, true)
  else if f.type ∈ ["str", "string", "varchar"] then
    .ok (.VARCHAR, none, some (f.max_length.getD 65535), false)
  else if f.type ∈ ["int", "int64"] then .ok (.INT64, none, none, false)
  else if f.type ∈ ["float", "float32"] then .ok (.FLOAT, none, none, false)
  else if f.type ∈ ["bool", "boolean"] then .ok (.BOOL, none, none, false)
  else .error (.unsupportedType f.name f.type)

/-- The field loop of `map_schema_to_milvus` (`milvus_uploader.py:71-130`):
carries the running primary-key and vector-field counts and returns the
mapped fields together with the final counts. -/
def mapFields (sname : String) : List Field → Nat → Nat →
    Except MapErr (List FieldSchema × Nat × Nat)
  | [], pk, vec => .ok ([], pk, vec)
  | f :: rest, pk, vec =>
    if f.name = "" ∨ f.type = "" then .error (.invalidField sname f.name)
    else
      match mapOne f with
      | .error e => .error e
      | .ok (dt, dimK, mlK, isV) =>
        let vec' := if isV then vec + 1 else vec
        if f.is_primary then
          if pk > 0 then .error (.multiplePrimaryKeys sname)
          else if ¬ (dt = .INT64 ∨ dt = .VARCHAR) then .error (.pkTypeInvalid f.name)
          else
            match mapFields sname rest (pk + 1) vec' with
            | .error e => .error e
            | .ok (fss, pkF, vecF) =>
              .ok (⟨f.name, dt, dimK, mlK, true, false⟩ :: fss, pkF, vecF)
        else
          match mapFields sname rest pk vec' with
          | .error e => .error e
          | .ok (fss, pkF, vecF) =>
            .ok (⟨f.name, dt, dimK, mlK, false, false⟩ :: fss, pkF, vecF)

/-- `map_schema_to_milvus` (`milvus_uploader.py:59-153`).  On success the
produced `CollectionSchema` carries `auto_id = False if primary_key_count
> 0 else True`, exactly as line 153 computes it. -/
def map_schema_to_milvus (s : SchemaModel) : Except MapErr CollectionSchema :=
  if s.fields = [] then .error (.noFields s.name)
  else
    match mapFields s.name s.fields 0 0 with
    | .error e => .error e
    | .ok (mfs, pk, _vec) =>
      if pk = 0 then .error (.noPrimaryKey s.name)
      else
        .ok ⟨mfs, s.description.getD ("Collection for schema " ++ s.name),
             (mfs.find? (fun mf => mf.is_primary)).map (fun mf => mf.name),
             if pk > 0 then false else true⟩

/-! ## Python value helpers used by the ingestion loop's coercions -/

/-- `isinstance(v, str)`. -/
def isPyStr : PyVal → Bool
  | .vstr _ => true
  | _ => false

/-- `isinstance(v, int)`: Python `bool` is a subclass of `int`. -/
def isPyInt : PyVal → Bool
  | .vint _ => true
  | .vbool _ => true
  | _ => false

/-- `isinstance(v, float)`. -/
def isPyFloat : PyVal → Bool
  | .vfloat _ => true
  | _ => false

/-- `isinstance(v, bool)`. -/
def isPyBool : PyVal → Bool
  | .vbool _ => true
  | _ => false

/-- `isinstance(v, (float, int))` — the vector-element test at
`milvus_uploader.py:364`; Python `bool` counts as `int`. -/
def isPyNum : PyVal → Bool
  | .vfloat _ => true
  | .vint _ => true
  | .vbool _ => true
  | _ => false

/-- Python truthiness, as used by `bool(value)`. -/
def pyTruthy : PyVal → Bool
  | .vnull => false
  | .vbool b => b
  | .vint n => n ≠ 0
  | .vfloat q => q ≠ 0
  | .vstr s => s ≠ ""
  | .vlist xs => ¬ xs.isEmpty

/-- `str(value)` for the values that occur in JSONL records.  The exact
rendering is immaterial: no verified property inspects the produced
text, only that the coercion always succeeds. -/
def pyStr : PyVal → String
  | .vnull => "None"
  | .vbool b => if b then "True" else "False"
  | .vint n => toString n
  | .vfloat q => toString q
  | .vstr s => s
  | .vlist _ => "[...]"

/-- Digit run to a number (caller checks non-emptiness). -/
def digitsToNat (cs : List Char) : Nat :=
  cs.foldl (fun acc c => acc * 10 + (c.toNat - 48)) 0

/-- Models Python `float(s)` on plain decimal literals: optional sign,
digits, optional fractional part (scientific notation and `inf`/`nan`
spellings are outside the fragment the pipeline's inputs use). -/
def pyFloatOfString (s : String) : Option Rat :=
  let cs := s.trim.toList
  let signed : Bool × List Char :=
    match cs with
    | '-' :: rest => (true, rest)
    | '+' :: rest => (false, rest)
    | _ => (false, cs)
  let ip := signed.2.takeWhile Char.isDigit
  let rest := signed.2.dropWhile Char.isDigit
  let core : Option Rat :=
    match rest with
    | [] => if ip.isEmpty then none else some ((digitsToNat ip : Nat) : Rat)
    | '.' :: fr =>
      let fp := fr.takeWhile Char.isDigit
      let rest2 := fr.dropWhile Char.isDigit
      if ¬ rest2.isEmpty ∨ (ip.isEmpty ∧ fp.isEmpty) then none
      else some ((digitsToNat ip : Rat) + (digitsToNat fp : Rat) / ((10 : Rat) ^ fp.length))
    | _ => none
  core.map (fun q => if signed.1 then -q else q)

/-- Models Python `int(s)`: optional sign and digits. -/
def pyIntOfString (s : String) : Option Int :=
  let cs := s.trim.toList
  let signed : Bool × List Char :=
    match cs with
    | '-' :: rest => (true, rest)
    | '+' :: rest => (false, rest)
    | _ => (false, cs)
  if signed.2.isEmpty ∨ ¬ signed.2.all Char.isDigit then none
  else some (if signed.1 then -(digitsToNat signed.2 : Int) else (digitsToNat signed.2 : Int))

/-- Truncation toward zero, as Python `int(float)`. -/
def ratTrunc (q : Rat) : Int := q.num.tdiv (q.den : Int)

/-- `isinstance(value, list) and all(isinstance(v, (float, int)) for v in value)`. -/
def isNumList : PyVal → Bool
  | .vlist xs => xs.all isPyNum
  | _ => false

/-- `float(value)`: succeeds on numbers, booleans and numeric strings,
raises (`none`) on `None` and lists. -/
def pyFloat : PyVal → Option Rat
  | .vfloat q => some q
  | .vint n => some ((n : Int) : Rat)
  | .vbool b => some (if b then 1 else 0)
  | .vstr s => pyFloatOfString s
  | _ => none

/-- `int(value)`: succeeds on numbers, booleans and integer strings,
raises (`none`) on `None`, lists and non-numeric strings. -/
def pyInt : PyVal → Option Int
  | .vint n => some n
  | .vbool b => some (if b then 1 else 0)
  | .vfloat q => some (ratTrunc q)
  | .vstr s => pyIntOfString s
  | _ => none

/-! ## Batch ingestion engine (`_insert_data_internal`) -/

/-- Record-level failures caught by the `except (ValueError, TypeError)`
in `_insert_data_internal` (`milvus_uploader.py:382`). -/
inductive RecErr where
  | missingField (name : String) (line : Nat)
  | intCoerce (name : String) (line : Nat)
  | floatCoerce (name : String) (line : Nat)
  | vectorElemType (name : String) (line : Nat)
  | vectorNotList (name : String) (line : Nat)
  | dimMismatch (name : String) (line : Nat)
  deriving DecidableEq

/-- The value coercion chain of `_insert_data_internal`
(`milvus_uploader.py:354-376`).  Note the faithful quirk: for a
`FLOAT_VECTOR` field whose value is already a list of numbers, the whole
branch is skipped, so the dimension check at line 375 never runs; the
check happens only when element-wise coercion was needed. -/
def coerceValue (mf : FieldSchema) (ln : Nat) (v : PyVal) : Except RecErr PyVal :=
  if mf.dtype = .VARCHAR ∧ ¬ isPyStr v then .ok (.vstr (pyStr v))
  else if mf.dtype = .INT64 ∧ ¬ isPyInt v then
    match pyInt v with
    | some n => .ok (.vint n)
    | none => .error (.intCoerce mf.name ln)
  else if mf.dtype = .FLOAT ∧ ¬ isPyFloat v then
    match pyFloat v with
    | some q => .ok (.vfloat q)
    | none => .error (.floatCoerce mf.name ln)
  else if mf.dtype = .BOOL ∧ ¬ isPyBool v then .ok (.vbool (pyTruthy v))
  else if mf.dtype = .FLOAT_VECTOR ∧ ¬ isNumList v then
    match v with
    | .vlist xs =>
      match xs.mapM pyFloat with
      | some qs =>
        if mf.dim ≠ some ((qs.length : Nat) : Int) then .error (.dimMismatch mf.name ln)
        else .ok (.vlist (qs.map PyVal.vfloat))
      | none => .error (.vectorElemType mf.name ln)
    | _ => .error (.vectorNotList mf.name ln)
  else .ok v

/-- A parsed JSON object, as an association list (Python dict). -/
abbrev PyRecord := List (String × PyVal)

/-- One line of the JSONL source, abstracted to exactly what the loop
distinguishes: blank (skipped silently), a JSON parse failure, or a
parsed record. -/
inductive SrcLine where
  | blank
  | malformed
  | record (r : PyRecord)

/-- The per-record field loop of `_insert_data_internal`
(`milvus_uploader.py:344-378`): columns are kept positionally aligned
with `fields`.  Appends happen field by field, so when a later field
fails, the appends already made to earlier columns are kept — exactly
as the Python dict-of-lists is left after the exception. -/
def processFields (ln : Nat) (r : PyRecord) :
    List FieldSchema → List (List PyVal) → Option RecErr × List (List PyVal)
  | [], cols => (none, cols)
  | mf :: fs, cols =>
    let col := cols.headD []
    let rest := cols.tail
    match r.lookup mf.name with
    | none => (some (.missingField mf.name ln), cols)
    | some v =>
      match coerceValue mf ln v with
      | .error e => (some e, cols)
      | .ok w =>
        let out := processFields ln r fs rest
        (out.1, (col ++ [w]) :: out.2)

/-- Fatal errors of the ingestion run: a failed engine insert raises
`RuntimeError` (`milvus_uploader.py:408` and `:421`). -/
inductive FatalErr where
  | insertFailed (line : Nat)
  | finalInsertFailed
  deriving DecidableEq

/-- The loop state of `_insert_data_internal`, plus the observable
engine history: `committed` records the reported inserted count of each
successful engine insert call (this data lives in the engine and
survives an abort), `insertCalls` counts insert attempts. -/
structure IngestState where
  batch_data : List (List PyVal)
  batch_count : Nat
  total_inserted : Nat
  skipped : Nat
  line_num : Nat
  committed : List Nat
  insertCalls : Nat
  fatal : Option FatalErr

/-- Modelled from the spec: the storage engine interface
`insert(container, columnBatch) -> insertedCount` (spec section 6).
The engine accepts a non-empty column batch whose columns all have one
common length and reports that length as the inserted count; `ok` is the
engine-side outcome of this particular call (a call may fail for engine
reasons), and a malformed batch is rejected. -/
def engineInsert (ok : Bool) (cols : List (List PyVal)) : Option Nat :=
  if ok ∧ ¬ cols.isEmpty ∧ cols.all (fun c => c.length = (cols.headD []).length) then
    some (cols.headD []).length
  else none

/-- `batch_data = {field_name: [] for field_name in fields_to_extract}`. -/
def emptyBatch (n : Nat) : List (List PyVal) := List.replicate n []

/-- One iteration of the line loop of `_insert_data_internal`
(`milvus_uploader.py:330-408`).  `oracle` gives the engine-side outcome
of the n-th insert call.  After a fatal insert failure the exception
propagates, so the step leaves the state untouched. -/
def stepLine (fields : List FieldSchema) (oracle : Nat → Bool) (batch_size : Nat)
    (s : IngestState) (l : SrcLine) : IngestState :=
  if s.fatal.isSome then s
  else
    let s1 := { s with line_num := s.line_num + 1 }
    match l with
    | .blank => s1
    | .malformed => { s1 with skipped := s1.skipped + 1 }
    | .record r =>
      match processFields s1.line_num r fields s1.batch_data with
      | (some _, cols) => { s1 with skipped := s1.skipped + 1, batch_data := cols }
      | (none, cols) =>
        let s2 := { s1 with batch_data := cols, batch_count := s1.batch_count + 1 }
        if s2.batch_count ≥ batch_size then
          match engineInsert (oracle s2.insertCalls) s2.batch_data with
          | some n =>
            { s2 with total_inserted := s2.total_inserted + n,
                      committed := s2.committed ++ [n],
                      insertCalls := s2.insertCalls + 1,
                      batch_data := emptyBatch fields.length,
                      batch_count := 0 }
          | none =>
            { s2 with insertCalls := s2.insertCalls + 1,
                      fatal := some (.insertFailed s2.line_num) }
        else s2

/-- The trailing partial-batch insert of `_insert_data_internal`
(`milvus_uploader.py:411-421`).  The subsequent `collection.flush()` does
not change any count (a flush failure is only logged), so it has no
state effect to model. -/
def finishIngest (oracle : Nat → Bool) (s : IngestState) : IngestState :=
  if s.fatal.isSome then s
  else if s.batch_count > 0 then
    match engineInsert (oracle s.insertCalls) s.batch_data with
    | some n =>
      { s with total_inserted := s.total_inserted + n,
               committed := s.committed ++ [n],
               insertCalls := s.insertCalls + 1 }
    | none =>
      { s with insertCalls := s.insertCalls + 1, fatal := some .finalInsertFailed }
  else s

/-- Initial loop state (`milvus_uploader.py:322-326`). -/
def initState (n : Nat) : IngestState := ⟨emptyBatch n, 0, 0, 0, 0, [], 0, none⟩

/-- `_insert_data_internal`'s whole run over a list of source lines,
for a given extracted field list. -/
def insertData (fields : List FieldSchema) (oracle : Nat → Bool) (batch_size : Nat)
    (lines : List SrcLine) : IngestState :=
  finishIngest oracle
    (lines.foldl (stepLine fields oracle batch_size) (initState fields.length))

/-- `fields_to_extract` (`milvus_uploader.py:317-320`): all schema fields,
minus the primary key when the collection uses `auto_id`. -/
def fieldsToExtract (cs : CollectionSchema) : List FieldSchema :=
  if cs.auto_id then cs.fields.filter (fun f => cs.primary_field ≠ some f.name)
  else cs.fields

/-- Non-blank line count of a source stream. -/
def countNonBlank (lines : List SrcLine) : Nat :=
  (lines.filter (fun l => match l with | .blank => false | _ => true)).length

/-- Contribution of one line to the non-blank count. -/
def nbOne : SrcLine → Nat
  | .blank => 0
  | _ => 1

/-! ## Container provisioner (`get_or_create_collection`) -/

/-- Observable engine-side state the provisioner touches, modelled from
the spec's engine interface (section 6): the set of live connection
aliases, the existing containers with their schemas, and the created
vector indexes as (collection, field) pairs. -/
structure MilvusState where
  connections : List String
  collections : List (String × CollectionSchema)
  indexes : List (String × String)
  deriving DecidableEq

/-- `utility.has_collection` (spec interface `has_container`). -/
def has_collection (st : MilvusState) (name : String) : Bool :=
  (st.collections.lookup name).isSome

/-- `connect_to_milvus` (`milvus_uploader.py:30-44`): reuses an existing
connection for the alias, otherwise establishes one (the connection
itself is modelled from the spec interface `connect(alias, host, port)`
as succeeding; a connection failure simply aborts before provisioning). -/
def connect_to_milvus (connAlias : String) (st : MilvusState) : MilvusState :=
  if st.connections.contains connAlias then st
  else { st with connections := connAlias :: st.connections }

/-- Provisioning errors: schema mapping failures propagate
(`milvus_uploader.py:175`). -/
inductive ProvisionErr where
  | mapFailed (e : MapErr)
  deriving DecidableEq

/-- `get_or_create_collection` (`milvus_uploader.py:155-226`): a
collection handle is identified by its name.  If the collection exists
it is fetched and returned as-is; otherwise it is created from the
mapped schema and one vector index is created per vector field of the
schema definition (`create_index` is modelled from the spec interface as
succeeding — the claim under verification concerns the successful
path). -/
def get_or_create_collection (sd : SchemaModel) (connAlias : String) (st : MilvusState) :
    Except ProvisionErr (String × MilvusState) :=
  let cname := sd.name
  let st1 := connect_to_milvus connAlias st
  if has_collection st1 cname then .ok (cname, st1)
  else
    match map_schema_to_milvus sd with
    | .error e => .error (.mapFailed e)
    | .ok cs =>
      let st2 := { st1 with collections := st1.collections ++ [(cname, cs)] }
      let vecFields := sd.fields.filter isVecFlag
      let st3 := { st2 with indexes := st2.indexes ++ vecFields.map (fun f => (cname, f.name)) }
      .ok (cname, st3)

/-! ## Ingestion orchestrator (`upload_jsonl_to_milvus`) -/

/-- The upload audit row written by `create_upload_log`
(`schema_manager.py:106-138`), restricted to the attributes the
orchestrator passes. -/
structure AuditRecord where
  schema_name : String
  uploaded_filename : String
  record_count : Nat
  status : String
  message : Option String
  deriving DecidableEq

/-- Outcomes of the collaborator steps the orchestrator sequences,
abstracted at their interface boundary: does the input file exist, the
schema-store lookup result, the connection outcome, the provisioning
outcome, the ingestion outcome (committed count or raised message), and
whether the audit store's own commit succeeds. -/
structure OrchEnv where
  fileExists : Bool
  schemaDef : Option SchemaModel
  connect : Except String Unit
  provision : Except String Unit
  ingest : Except String Nat
  logWriteOk : Bool

/-- What one orchestrator run produces: the returned triple or the
re-raised exception message, the audit-record writes attempted in the
`finally` block, and whether the audit store persisted the write. -/
structure UploadOutcome where
  result : Except String (Nat × String × Option String)
  audits : List AuditRecord
  auditPersisted : Bool

/-- The `try` body of `upload_jsonl_to_milvus`
(`milvus_uploader.py:245-269`): file check, schema lookup, connect,
provision, ingest, in that order, first failure raising. -/
def uploadCore (schema_name fname : String) (env : OrchEnv) : Except String Nat :=
  if ¬ env.fileExists then .error ("Input JSONL file not found: " ++ fname)
  else
    match env.schemaDef with
    | none => .error ("Schema '" ++ schema_name ++ "' not found in database.")
    | some _ =>
      match env.connect with
      | .error e => .error e
      | .ok _ =>
        match env.provision with
        | .error e => .error e
        | .ok _ => env.ingest

/-- `upload_jsonl_to_milvus` (`milvus_uploader.py:230-304`): on success
status `Success` with the inserted count; on any failure status
`Failed` with the exception message truncated to 1020 characters, and
the exception re-raised.  The `finally` block always attempts exactly
one `create_upload_log` call, and a failure of that call is swallowed
(`milvus_uploader.py:292-294`), leaving the run's outcome unchanged. -/
def upload_jsonl_to_milvus (schema_name fname : String) (env : OrchEnv) : UploadOutcome :=
  match uploadCore schema_name fname env with
  | .ok n =>
    let msg := some ("Successfully inserted " ++ toString n ++ " records.")
    ⟨.ok (n, "Success", msg), [⟨schema_name, fname, n, "Success", msg⟩], env.logWriteOk⟩
  | .error e =>
    ⟨.error e, [⟨schema_name, fname, 0, "Failed", some (e.take 1020)⟩], env.logWriteOk⟩

/-! ## Concrete instances used by the claim theorems -/

/-- The spec's worked example schema: `docs` with an `int` primary key
`id` and a 4-dimensional vector field `vec`. -/
def docsSchema : SchemaModel :=
  ⟨"docs", none,
   [⟨"id", "int", true, none, none, none, false⟩,
    ⟨"vec", "vector<float>", false, some true, some 4, none, false⟩]⟩

/-- The engine schema `map_schema_to_milvus` produces for `docsSchema`. -/
def docsCS : CollectionSchema :=
  ⟨[⟨"id", .INT64, none, none, true, false⟩,
    ⟨"vec", .FLOAT_VECTOR, some 4, none, false, false⟩],
   "Collection for schema docs", some "id", false⟩

/-- Input line 1 of the spec example. -/
def exLine1 : SrcLine :=
  .record [("id", .vint 1),
           ("vec", .vlist [.vfloat (1/10), .vfloat (2/10), .vfloat (3/10), .vfloat (4/10)])]

/-- Input line 2 of the spec example: a 2-element vector where dimension
4 is declared. -/
def exLine2 : SrcLine :=
  .record [("id", .vint 2), ("vec", .vlist [.vfloat (1/10), .vfloat (2/10)])]

/-- The final loop state on the spec example, batch size 1000, engine
accepting every call. -/
def c1State : IngestState :=
  insertData (fieldsToExtract docsCS) (fun _ => true) 1000 [exLine1, exLine2]

/-- A record whose `vec` value is not a list: `id` is coerced and
appended first, then `vec` raises. -/
def c2Line : SrcLine := .record [("id", .vint 2), ("vec", .vstr "oops")]

/-- The loop state after ingesting only `c2Line`. -/
def c2State : IngestState :=
  insertData (fieldsToExtract docsCS) (fun _ => true) 1000 [c2Line]

/-- C6 counterexample input: a single `int` primary-key field that also
carries `dim = 3`.  It meets every condition the claim lists, yet
`validate_schema_definition` rejects it (dim on a non-vector field). -/
def c6ex : List Field := [⟨"id", "int", true, none, some 3, none, false⟩]

/-- C7/C8 counterexample input: a well-formed primary key plus a field
of type `vector<float>` with `is_vector` explicitly `false`. -/
def c7ex : List Field :=
  [⟨"id", "int", true, none, none, none, false⟩,
   ⟨"v", "vector<float>", false, some false, none, none, false⟩]

/-- C8 counterexample schema wrapping `c7ex`. -/
def c8exSchema : SchemaModel := ⟨"s8", none, c7ex⟩

/-- C9 counterexample schema: integer-typed primary key explicitly
flagged `auto_generate`. -/
def c9ex : SchemaModel :=
  ⟨"s9", none, [⟨"id", "int", true, none, none, none, true⟩]⟩

/-- The engine schema the mapper produces for `c9ex`. -/
def c9CS : CollectionSchema :=
  ⟨[⟨"id", .INT64, none, none, true, false⟩],
   "Collection for schema s9", some "id", false⟩

/-- The conditions claim C6 lists for a field list: non-empty names,
types from the closed set, unique names, well-formed vector fields with
a positive integer dim, and exactly one primary-key field of type `int`
or `str`. -/
def ClaimC6Hyp (fields : List Field) : Prop :=
  (∀ f ∈ fields, f.name ≠ "" ∧ f.type ∈ validTypes) ∧
  (fields.map Field.name).Nodup ∧
  (∀ f ∈ fields, isVecFlag f → f.type = "vector<float>" ∧ 0 < f.dim.getD 0) ∧
  countPrim fields = 1 ∧
  (∀ f ∈ fields, f.is_primary → f.type = "int" ∨ f.type = "str")

instance (fields : List Field) : Decidable (ClaimC6Hyp fields) := by
  unfold ClaimC6Hyp; infer_instance

/-- Per-field facts that hold for every field of a list accepted by
`validate_schema_definition` (used to relate validator and mapper). -/
def FieldOk (f : Field) : Prop :=
  f.name ≠ "" ∧ f.type ∈ validTypes ∧
  (f.is_primary = true → f.type = "int" ∨ f.type = "str") ∧
  (isVecFlag f = true → f.type = "vector<float>" ∧ 0 < f.dim.getD 0) ∧
  ¬ (f.is_vector = none ∧ f.type = "vector<float>")

/-- Length of the last column of a batch (0 for an empty batch).  The
last extracted field's column is appended to only when the whole record
was accepted, so this equals `batch_count` throughout a run. -/
def lastLen : List (List PyVal) → Nat
  | [] => 0
  | [c] => c.length
  | _ :: c :: rest => lastLen (c :: rest)

/-- Structural loop invariant of `_insert_data_internal`: the batch has
one column per extracted field and the last column's length equals
`batch_count`. -/
def StInv (fields : List FieldSchema) (s : IngestState) : Prop :=
  s.batch_data.length = fields.length ∧ lastLen s.batch_data = s.batch_count

/-- The running tally `total_inserted + skipped + batch_count`: on an
error-free run it equals the number of non-blank lines consumed. -/
def tally (s : IngestState) : Nat := s.total_inserted + s.skipped + s.batch_count

/-- Counting invariant for the engine-call history: every insert call
but a failed last one contributed its reported count. -/
def CallInv (s : IngestState) : Prop :=
  s.total_inserted = s.committed.sum ∧
  s.insertCalls = s.committed.length + (if s.fatal.isSome then 1 else 0)

/-- A fully successful orchestrator environment used as witness data. -/
def c5env : OrchEnv := ⟨true, some docsSchema, .ok (), .ok (), .ok 5, false⟩

/-- An orchestrator environment whose ingestion step raises. -/
def c5envFail : OrchEnv := ⟨true, some docsSchema, .ok (), .ok (), .error "boom", true⟩

/-- An empty engine state for provisioning witnesses. -/
def emptyMilvus : MilvusState := ⟨[], [], []⟩

/-- The engine state after provisioning `docsSchema` on `emptyMilvus`. -/
def c10st : MilvusState := ⟨["default"], [("docs", docsCS)], [("docs", "vec")]⟩

/-- Per-field conditions under which a field passes `checkField`
(claim C6's conditions plus the two the counterexample shows are also
required: an explicit `is_vector` on vector-marker types, and no `dim`
on non-vector fields). -/
def GoodField (f : Field) : Prop :=
  f.name ≠ "" ∧ f.type ∈ validTypes ∧
  (f.is_primary = true → f.type = "int" ∨ f.type = "str") ∧
  (isVecFlag f = true → f.type = "vector<float>" ∧ 0 < f.dim.getD 0) ∧
  (f.type = "vector<float>" → f.is_vector ≠ none) ∧
  (isVecFlag f = false → f.dim = none)

/-- A validated field on which the mapper's type lookup cannot fail:
validated, and not a vector-marker type left without the vector flag. -/
def GoodMapField (f : Field) : Prop :=
  FieldOk f ∧ (f.type = "vector<float>" → isVecFlag f = true)

/-- Two primary keys: witness input for the more-than-one-primary half
of C6. -/
def c6TwoPK : List Field :=
  [⟨"a", "int", true, none, none, none, false⟩,
   ⟨"b", "str", true, none, none, none, false⟩]

/-- A vector-marker-typed field with the `is_vector` flag absent:
witness input for the amended C7. -/
def c7absent : List Field :=
  [⟨"v", "vector<float>", false, none, none, none, false⟩]

/-! ## Claim theorems -/

/-- **C1.**  On the spec's worked example (schema `docs` with `id : int`
primary and `vec : vector<float>` of dim 4; lines `{"id":1,"vec":[0.1,
0.2,0.3,0.4]}` and `{"id":2,"vec":[0.1,0.2]}`) the code does NOT skip
the dimension-mismatched record: because `[0.1,0.2]` is already a list
of numbers, the coercion branch containing the dimension check
(`milvus_uploader.py:375`) is never entered, so both records are
accepted, `skipped = 0`, and the 2-element vector is sent to the
engine in a 2-record batch — not the claimed 1 committed / 1 skipped. -/
theorem c1_dim_mismatch_not_skipped :
    map_schema_to_milvus docsSchema = .ok docsCS ∧
    c1State.skipped = 0 ∧ c1State.total_inserted = 2 ∧ c1State.fatal = none :=
  ⟨rfl, rfl, rfl, rfl⟩

/-- **C2.**  The same-length-columns invariant of the Ingestion Batch is
violated: after the single line `{"id":2,"vec":"oops"}` (whose `id`
coerces fine and whose `vec` then raises), the `id` column holds one
value while the `vec` column is empty and `batch_count = 0` — the
append made before the failure is never rolled back
(`milvus_uploader.py:378`). -/
theorem c2_partial_append_breaks_invariant :
    c2State.batch_data.map List.length = [1, 0] ∧
    c2State.batch_count = 0 ∧ c2State.skipped = 1 ∧ c2State.fatal = none :=
  ⟨rfl, rfl, rfl, rfl⟩

/-- **C6 counterexample.**  The field list `[{name:"id", type:"int",
is_primary:true, dim:3}]` satisfies every condition the claim lists
(non-empty names, closed-set types, unique names, vacuously well-formed
vector fields, exactly one `int`-typed primary key), yet
`validate_schema_definition` rejects it: `dim` on a non-vector field is
a further failure condition the claim omits (`schema_manager.py:203`). -/
theorem c6_validate_counterexample :
    ClaimC6Hyp c6ex ∧
    validate_schema_definition c6ex = .error (.dimOnNonVector "id") :=
  ⟨by decide, rfl⟩

/-- **C7 counterexample.**  A field of type `vector<float>` with
`is_vector` explicitly `false` (and no `dim`) passes validation: the
missing-flag check at `schema_manager.py:197` fires only when the flag
is absent (`None`), so the claim's "whether the flag is absent or
explicitly false" direction is false. -/
theorem c7_explicit_false_counterexample :
    validate_schema_definition c7ex = .ok () ∧
    c7ex.map (fun f => (f.type, f.is_vector)) =
      [("int", none), ("vector<float>", some false)] :=
  ⟨rfl, rfl⟩

/-- **C8 counterexample.**  A field list accepted by
`validate_schema_definition` on which `map_schema_to_milvus` fails with
the unsupported-type error: `{name:"v", type:"vector<float>",
is_vector:false}` validates (see C7), but the mapper's scalar lookup
has no entry for the vector-marker string
(`milvus_uploader.py:109-112`). -/
theorem c8_map_unsupported_counterexample :
    validate_schema_definition c8exSchema.fields = .ok () ∧
    map_schema_to_milvus c8exSchema = .error (.unsupportedType "v" "vector<float>") :=
  ⟨rfl, rfl⟩

/-- **C9 counterexample.**  A schema whose primary key is
integer-typed and explicitly flagged `auto_generate` still maps to an
engine schema with `auto_id = false`: `map_schema_to_milvus` never
consults any auto-generate flag and hard-codes `auto_id=False`
whenever a primary key exists (`milvus_uploader.py:125` and `:153`). -/
theorem c9_auto_generate_ignored_counterexample :
    c9ex.fields = [⟨"id", "int", true, none, none, none, true⟩] ∧
    map_schema_to_milvus c9ex = .ok c9CS ∧ c9CS.auto_id = false :=
  ⟨rfl, rfl, rfl⟩

/-- **C9 (amended).**  For every schema accepted by the mapper the
engine schema's auto-id flag is `false`: the mapper rejects schemas with
no primary key and sets `auto_id = False` whenever the primary-key
count is positive; no auto-generate flag is ever consulted. -/
theorem c9_auto_id_always_false (s : SchemaModel) (cs : CollectionSchema)
    (h : map_schema_to_milvus s = .ok cs) : cs.auto_id = false := by
  unfold map_schema_to_milvus at h
  split at h
  · cases h
  · split at h
    · cases h
    · rename_i mfs pk vec heq
      split at h
      · cases h
      · rename_i hpk
        cases h
        simp only [CollectionSchema.auto_id]
        rw [if_pos (Nat.pos_of_ne_zero hpk)]

/-- Witness for `c9_auto_id_always_false` at the `docs` schema. -/
theorem c9_auto_id_always_false_witness : docsCS.auto_id = false :=
  c9_auto_id_always_false docsSchema docsCS rfl

/-- **C5.**  Every orchestrator run attempts exactly one audit write;
on success it carries status `Success` and the committed count, on any
failure status `Failed` and the 1020-character-truncated message; the
write happens in the `finally` region for every environment, and the
audit store's own success or failure (`logWriteOk`) never changes the
run's outcome. -/
theorem c5_exactly_one_audit (sn fn : String) (env : OrchEnv) (b : Bool) :
    (upload_jsonl_to_milvus sn fn env).audits.length = 1 ∧
    (∀ n st m, (upload_jsonl_to_milvus sn fn env).result = .ok (n, st, m) →
      st = "Success" ∧
      (upload_jsonl_to_milvus sn fn env).audits = [⟨sn, fn, n, "Success", m⟩]) ∧
    (∀ e, (upload_jsonl_to_milvus sn fn env).result = .error e →
      (upload_jsonl_to_milvus sn fn env).audits =
        [⟨sn, fn, 0, "Failed", some (e.take 1020)⟩]) ∧
    (upload_jsonl_to_milvus sn fn { env with logWriteOk := b }).result =
      (upload_jsonl_to_milvus sn fn env).result := by
  obtain ⟨fe, sd, co, pr, ig, lw⟩ := env
  unfold upload_jsonl_to_milvus
  cases hc : uploadCore sn fn ⟨fe, sd, co, pr, ig, lw⟩ with
  | ok n =>
    have hc' : uploadCore sn fn ⟨fe, sd, co, pr, ig, b⟩ = .ok n := hc
    rw [hc']
    refine ⟨rfl, ?_, ?_, rfl⟩
    · intro n' st m h
      cases h
      exact ⟨rfl, rfl⟩
    · intro e h
      cases h
  | error e =>
    have hc' : uploadCore sn fn ⟨fe, sd, co, pr, ig, b⟩ = .error e := hc
    rw [hc']
    refine ⟨rfl, ?_, ?_, rfl⟩
    · intro n' st m h
      cases h
    · intro e' h
      cases h
      exact rfl

/-- Witness for `c5_exactly_one_audit`: a successful run logs
`Success` with count 5, a failing run logs `Failed` with the truncated
message. -/
theorem c5_exactly_one_audit_witness :
    (upload_jsonl_to_milvus "docs" "f.jsonl" c5env).audits =
      [⟨"docs", "f.jsonl", 5, "Success", some "Successfully inserted 5 records."⟩] ∧
    (upload_jsonl_to_milvus "docs" "f.jsonl" c5envFail).audits =
      [⟨"docs", "f.jsonl", 0, "Failed", some ("boom".take 1020)⟩] :=
  ⟨((c5_exactly_one_audit "docs" "f.jsonl" c5env true).2.1 5 "Success"
      (some "Successfully inserted 5 records.") rfl).2,
   (c5_exactly_one_audit "docs" "f.jsonl" c5envFail false).2.2.1 "boom" rfl⟩

/-- The connection alias is always live after `connect_to_milvus`. -/
theorem connect_mem (a : String) (st : MilvusState) :
    (connect_to_milvus a st).connections.contains a = true := by
  unfold connect_to_milvus
  split
  · assumption
  · simp

/-- `connect_to_milvus` is the identity on a state already holding the
alias. -/
theorem connect_idem (a : String) (st : MilvusState)
    (h : st.connections.contains a = true) : connect_to_milvus a st = st := by
  unfold connect_to_milvus
  rw [if_pos h]

/-- Appending a binding for `n` makes lookup of `n` succeed. -/
theorem lookup_append_singleton {β : Type} (l : List (String × β)) (n : String) (b : β) :
    ((l ++ [(n, b)]).lookup n).isSome = true := by
  induction l with
  | nil => simp [List.lookup]
  | cons p t ih =>
    obtain ⟨k, v⟩ := p
    by_cases hk : (n == k) = true
    · simp [List.lookup, hk]
    · simp only [List.cons_append, List.lookup, hk]
      exact ih

/-- On a state that already holds the connection alias and the
collection, `get_or_create_collection` just fetches: it returns the
existing handle and leaves the state untouched. -/
theorem gocc_existing (sd : SchemaModel) (a : String) (s : MilvusState)
    (hc : s.connections.contains a = true)
    (hh : has_collection s sd.name = true) :
    get_or_create_collection sd a s = .ok (sd.name, s) := by
  simp only [get_or_create_collection]
  rw [connect_idem a s hc, if_pos hh]

/-- **C10.**  `get_or_create_collection` is idempotent: after any
successful call (in particular one that created the collection), a
second call with the same schema and alias returns the same handle and
leaves the engine state — collections and vector indexes included —
unchanged. -/
theorem c10_ensure_idempotent (sd : SchemaModel) (a : String)
    (st st1 : MilvusState) (c : String)
    (h : get_or_create_collection sd a st = .ok (c, st1)) :
    get_or_create_collection sd a st1 = .ok (c, st1) := by
  have hmem := connect_mem a st
  simp only [get_or_create_collection] at h
  by_cases hex : has_collection (connect_to_milvus a st) sd.name = true
  · rw [if_pos hex] at h
    cases h
    exact gocc_existing sd a _ hmem hex
  · rw [if_neg hex] at h
    cases hmap : map_schema_to_milvus sd with
    | error e => rw [hmap] at h; cases h
    | ok cs =>
      rw [hmap] at h
      cases h
      exact gocc_existing sd a _ hmem
        (lookup_append_singleton (connect_to_milvus a st).collections sd.name cs)

/-- Witness for `c10_ensure_idempotent`: provisioning `docs` on an
empty engine and calling again. -/
theorem c10_ensure_idempotent_witness :
    get_or_create_collection docsSchema "default" c10st = .ok ("docs", c10st) :=
  c10_ensure_idempotent docsSchema "default" emptyMilvus c10st "docs" rfl

/-- Members of the closed type set are non-empty strings. -/
theorem validTypes_ne_empty (t : String) (h : t ∈ validTypes) : t ≠ "" := by
  fin_cases h <;> decide

/-- A field that passes its `checkField` run satisfies `FieldOk`. -/
theorem checkField_none_fieldOk (i : Nat) (f : Field) (seen : List String)
    (h : checkField i f seen = none) : FieldOk f := by
  unfold checkField at h
  by_cases h1 : f.name = ""
  · rw [if_pos h1] at h; cases h
  · rw [if_neg h1] at h
    by_cases h2 : f.type = ""
    · rw [if_pos h2] at h; cases h
    · rw [if_neg h2] at h
      by_cases h3 : seen.contains f.name = true
      · rw [if_pos h3] at h; cases h
      · rw [if_neg h3] at h
        by_cases h4 : validTypes.contains f.type = true
        · rw [if_neg (not_not_intro h4)] at h
          have hmem : f.type ∈ validTypes := List.elem_iff.mp h4
          by_cases h5 : f.is_primary = true ∧ ¬ (f.type = "int" ∨ f.type = "str")
          · rw [if_pos h5] at h; cases h
          · rw [if_neg h5] at h
            have hps : f.is_primary = true → f.type = "int" ∨ f.type = "str" := by
              intro hp
              by_contra hq
              exact h5 ⟨hp, hq⟩
            by_cases h6 : isVecFlag f = true
            · rw [if_pos h6] at h
              by_cases h7 : f.type ≠ "vector<float>"
              · rw [if_pos h7] at h; cases h
              · rw [if_neg h7] at h
                push_neg at h7
                cases hdim : f.dim with
                | none => rw [hdim] at h; cases h
                | some d =>
                  rw [hdim] at h
                  change (if d ≤ 0 then some (ValErr.vectorDim f.name) else none) = none at h
                  by_cases h8 : d ≤ 0
                  · rw [if_pos h8] at h; cases h
                  · have hv : f.is_vector = some true := by
                      unfold isVecFlag at h6
                      cases hv' : f.is_vector with
                      | none => rw [hv'] at h6; cases h6
                      | some b =>
                        cases b
                        · rw [hv'] at h6; cases h6
                        · rfl
                    refine ⟨h1, hmem, hps, ?_, ?_⟩
                    · intro _
                      refine ⟨h7, ?_⟩
                      rw [hdim]
                      simp only [Option.getD_some]
                      omega
                    · intro hc
                      rw [hv] at hc
                      cases hc.1
            · rw [if_neg h6] at h
              by_cases h7 : f.is_vector = none ∧ f.type = "vector<float>"
              · rw [if_pos h7] at h; cases h
              · rw [if_neg h7] at h
                by_cases h8 : f.dim ≠ none
                · rw [if_pos h8] at h; cases h
                · exact ⟨h1, hmem, hps, fun hvt => absurd hvt h6, h7⟩
        · rw [if_pos h4] at h; cases h

/-- Under `GoodField` and a fresh name, `checkField` passes. -/
theorem checkField_none_of_good (i : Nat) (f : Field) (seen : List String)
    (hg : GoodField f) (hs : seen.contains f.name = false) :
    checkField i f seen = none := by
  obtain ⟨hn, ht, hp, hv, hflag, hd⟩ := hg
  unfold checkField
  rw [if_neg hn, if_neg (validTypes_ne_empty f.type ht),
    if_neg (by rw [hs]; intro hc; cases hc),
    if_neg (not_not_intro (List.elem_iff.mpr ht)),
    if_neg (fun hc => hc.2 (hp hc.1))]
  by_cases hvec : isVecFlag f = true
  · rw [if_pos hvec]
    obtain ⟨hmk, hpos⟩ := hv hvec
    rw [if_neg (not_not_intro hmk)]
    cases hdim : f.dim with
    | none => rw [hdim] at hpos; simp at hpos
    | some d =>
      rw [hdim] at hpos
      simp only [Option.getD_some] at hpos
      change (if d ≤ 0 then some (ValErr.vectorDim f.name) else none) = none
      rw [if_neg (by omega)]
  · rw [if_neg hvec, if_neg (fun hc => (hflag hc.2) hc.1),
      if_neg (not_not_intro (hd (by simpa using hvec)))]

/-- A successful `validateLoop` run returns the incoming count plus the
number of primary-key fields, and every listed field passed its
checks. -/
theorem validateLoop_ok (fields : List Field) :
    ∀ (i : Nat) (seen : List String) (pk n : Nat),
      validateLoop fields i seen pk = .ok n →
      n = pk + countPrim fields ∧ ∀ f ∈ fields, FieldOk f := by
  induction fields with
  | nil =>
    intro i seen pk n h
    simp only [validateLoop] at h
    cases h
    refine ⟨by simp [countPrim], ?_⟩
    intro f hf
    cases hf
  | cons f rest ih =>
    intro i seen pk n h
    simp only [validateLoop] at h
    cases hc : checkField i f seen with
    | some e => rw [hc] at h; cases h
    | none =>
      rw [hc] at h
      obtain ⟨hn, hok⟩ := ih (i + 1) (f.name :: seen) _ n h
      constructor
      · rw [hn, countPrim, countPrim, List.filter_cons]
        cases hp : f.is_primary
        · simp [hp]
        · simp [hp]
          omega
      · intro g hg
        rcases List.mem_cons.mp hg with rfl | hg'
        · exact checkField_none_fieldOk i g seen hc
        · exact hok g hg'

/-- Under `GoodField` conditions, pairwise-distinct names, and names
fresh for `seen`, the loop accepts and counts the primaries. -/
theorem validateLoop_ok_of_good (fields : List Field) :
    ∀ (i : Nat) (seen : List String) (pk : Nat),
      (∀ f ∈ fields, GoodField f) →
      (fields.map Field.name).Nodup →
      (∀ f ∈ fields, seen.contains f.name = false) →
      validateLoop fields i seen pk = .ok (pk + countPrim fields) := by
  induction fields with
  | nil =>
    intro i seen pk _ _ _
    simp [validateLoop, countPrim]
  | cons f rest ih =>
    intro i seen pk hg hnd hs
    simp only [validateLoop]
    rw [checkField_none_of_good i f seen (hg f (by simp)) (hs f (by simp))]
    have hnd' : f.name ∉ rest.map Field.name ∧ (rest.map Field.name).Nodup := by
      rw [List.map_cons, List.nodup_cons] at hnd
      exact hnd
    have hseen' : ∀ g ∈ rest, ((f.name :: seen).contains g.name) = false := by
      intro g hgm
      have hne : g.name ≠ f.name := by
        intro he
        exact hnd'.1 (he ▸ List.mem_map_of_mem Field.name hgm)
      have hbeq : (g.name == f.name) = false := by
        simp [hne]
      show (g.name == f.name || seen.contains g.name) = false
      rw [hbeq, hs g (List.mem_cons_of_mem f hgm)]
      rfl
    rw [ih (i + 1) (f.name :: seen) (if f.is_primary then pk + 1 else pk)
      (fun g hgm => hg g (List.mem_cons_of_mem f hgm)) hnd'.2 hseen']
    rw [countPrim, countPrim, List.filter_cons]
    cases hp : f.is_primary
    · simp [hp]
    · simp [hp]
      omega

/-- **C6 (amended).**  `validate` succeeds for every field list meeting
the claim's conditions AND the two further conditions the code
enforces (shown necessary by the counterexample): every
vector-marker-typed field carries an explicit `is_vector`, and no
non-vector field carries a `dim`.  `validate` fails for every field
list with zero primary keys and for every list with more than one. -/
theorem c6_validate_amended :
    (∀ fields : List Field, ClaimC6Hyp fields →
      (∀ f ∈ fields, f.type = "vector<float>" → f.is_vector ≠ none) →
      (∀ f ∈ fields, isVecFlag f = false → f.dim = none) →
      validate_schema_definition fields = .ok ()) ∧
    (∀ fields : List Field, countPrim fields = 0 →
      isOkE (validate_schema_definition fields) = false) ∧
    (∀ fields : List Field, 2 ≤ countPrim fields →
      isOkE (validate_schema_definition fields) = false) := by
  refine ⟨?_, ?_, ?_⟩
  · intro fields hc hflag hdim
    obtain ⟨h1, h2, h3, h4, h5⟩ := hc
    have hne : fields ≠ [] := by
      intro he
      rw [he] at h4
      simp [countPrim] at h4
    unfold validate_schema_definition
    rw [if_neg hne]
    have hgood : ∀ f ∈ fields, GoodField f := fun f hf =>
      ⟨(h1 f hf).1, (h1 f hf).2, fun hp => h5 f hf hp, h3 f hf, hflag f hf, hdim f hf⟩
    rw [validateLoop_ok_of_good fields 0 [] 0 hgood h2 (fun f _ => rfl), h4]
    rfl
  · intro fields h0
    unfold validate_schema_definition
    by_cases hne : fields = []
    · rw [if_pos hne]
      rfl
    · rw [if_neg hne]
      cases hl : validateLoop fields 0 [] 0 with
      | error e => rfl
      | ok n =>
        have hn : n = 0 := by
          have := (validateLoop_ok fields 0 [] 0 n hl).1
          omega
        rw [hn]
        rfl
  · intro fields h2
    unfold validate_schema_definition
    by_cases hne : fields = []
    · rw [if_pos hne]
      rfl
    · rw [if_neg hne]
      cases hl : validateLoop fields 0 [] 0 with
      | error e => rfl
      | ok n =>
        have hn : 2 ≤ n := by
          have := (validateLoop_ok fields 0 [] 0 n hl).1
          omega
        have hn0 : ¬ n = 0 := by omega
        have hn1 : n > 1 := by omega
        simp [hn0, hn1, isOkE]

/-- Witness for `c6_validate_amended`: the `docs` schema satisfies all
conditions and validates; the empty list and a two-primary-key list are
both rejected. -/
theorem c6_validate_amended_witness :
    validate_schema_definition docsSchema.fields = .ok () ∧
    isOkE (validate_schema_definition []) = false ∧
    isOkE (validate_schema_definition c6TwoPK) = false :=
  ⟨c6_validate_amended.1 docsSchema.fields (by decide) (by decide) (by decide),
   c6_validate_amended.2.1 [] (by decide),
   c6_validate_amended.2.2 c6TwoPK (by decide)⟩

/-- **C7 (amended).**  A field whose type is the vector-marker type
with the `is_vector` flag *absent* always fails validation; with the
flag explicitly `false` (and no `dim`) the field is treated as a
non-vector field and validation can succeed (counterexample
`c7_explicit_false_counterexample`), so the flag is still never
silently inferred from the type. -/
theorem c7_vector_flag_absent_rejected (fields : List Field) (f : Field)
    (hf : f ∈ fields) (ht : f.type = "vector<float>") (hv : f.is_vector = none) :
    isOkE (validate_schema_definition fields) = false := by
  unfold validate_schema_definition
  by_cases hne : fields = []
  · rw [if_pos hne]
    rfl
  · rw [if_neg hne]
    cases hl : validateLoop fields 0 [] 0 with
    | error e => rfl
    | ok n =>
      have hok := (validateLoop_ok fields 0 [] 0 n hl).2 f hf
      exact absurd ⟨hv, ht⟩ hok.2.2.2.2

/-- Witness for `c7_vector_flag_absent_rejected` at `c7absent`. -/
theorem c7_vector_flag_absent_rejected_witness :
    isOkE (validate_schema_definition c7absent) = false :=
  c7_vector_flag_absent_rejected c7absent
    ⟨"v", "vector<float>", false, none, none, none, false⟩
    (by decide) rfl rfl

/-- `mapOne` succeeds on every `GoodMapField`, and on a primary-key
field the resulting type is `INT64` or `VARCHAR`. -/
theorem mapOne_ok_of_good (f : Field) (hg : GoodMapField f) :
    ∃ out, mapOne f = .ok out ∧
      (f.is_primary = true → out.1 = DType.INT64 ∨ out.1 = DType.VARCHAR) := by
  obtain ⟨⟨hn, ht, hp, hv, hflag⟩, hmk⟩ := hg
  by_cases hvec : isVecFlag f = true
  · obtain ⟨hm, hpos⟩ := hv hvec
    cases hdim : f.dim with
    | none =>
      rw [hdim] at hpos
      simp at hpos
    | some d =>
      rw [hdim] at hpos
      simp only [Option.getD_some] at hpos
      refine ⟨(.FLOAT_VECTOR, some d, none, true), ?_, ?_⟩
      · unfold mapOne
        rw [if_pos hvec, if_neg (not_not_intro hm), hdim]
        change (if d ≤ 0 then Except.error (MapErr.vectorDim f.name)
          else Except.ok (DType.FLOAT_VECTOR, some d, none, true)) =
          Except.ok (DType.FLOAT_VECTOR, some d, none, true)
        rw [if_neg (by omega)]
      · intro hprim
        rcases hp hprim with h | h <;> rw [hm] at h <;> exact absurd h (by decide)
  · have hmk' : f.type ≠ "vector<float>" := fun he => hvec (hmk he)
    have hscalar : f.type = "str" ∨ f.type = "int" ∨ f.type = "float" ∨ f.type = "bool" := by
      simp only [validTypes, List.mem_cons, List.not_mem_nil, or_false] at ht
      rcases ht with h | h | h | h | h
      · exact .inl h
      · exact .inr (.inl h)
      · exact .inr (.inr (.inl h))
      · exact .inr (.inr (.inr h))
      · exact absurd h hmk'
    rcases hscalar with h | h | h | h
    · refine ⟨(.VARCHAR, none, some (f.max_length.getD 65535), false), ?_, fun _ => .inr rfl⟩
      unfold mapOne
      rw [if_neg hvec, h]
      rfl
    · refine ⟨(.INT64, none, none, false), ?_, fun _ => .inl rfl⟩
      unfold mapOne
      rw [if_neg hvec, h]
      rfl
    · refine ⟨(.FLOAT, none, none, false), ?_, ?_⟩
      · unfold mapOne
        rw [if_neg hvec, h]
        rfl
      · intro hprim
        rcases hp hprim with hh | hh <;> rw [h] at hh <;> exact absurd hh (by decide)
    · refine ⟨(.BOOL, none, none, false), ?_, ?_⟩
      · unfold mapOne
        rw [if_neg hvec, h]
        rfl
      · intro hprim
        rcases hp hprim with hh | hh <;> rw [h] at hh <;> exact absurd hh (by decide)

/-- When every field is a `GoodMapField` and the primaries fit in the
budget, the mapper's field loop succeeds and counts the primaries. -/
theorem mapFields_ok_of_good (sname : String) (fields : List Field) :
    ∀ (pk vec : Nat),
      (∀ f ∈ fields, GoodMapField f) →
      pk + countPrim fields ≤ 1 →
      ∃ fss vecF, mapFields sname fields pk vec = .ok (fss, pk + countPrim fields, vecF) := by
  induction fields with
  | nil =>
    intro pk vec _ _
    exact ⟨[], vec, by simp [mapFields, countPrim]⟩
  | cons f rest ih =>
    intro pk vec hg hle
    have hgf := hg f (by simp)
    obtain ⟨⟨dt, dimK, mlK, isV⟩, hout, hprim⟩ := mapOne_ok_of_good f hgf
    have hnt : ¬ (f.name = "" ∨ f.type = "") := by
      rintro (h | h)
      · exact hgf.1.1 h
      · exact validTypes_ne_empty f.type hgf.1.2.1 h
    by_cases hp : f.is_primary = true
    · have hcp : countPrim (f :: rest) = countPrim rest + 1 := by
        rw [countPrim, countPrim, List.filter_cons, hp]
        simp
      have hpk0 : pk = 0 := by
        rw [hcp] at hle
        omega
      have hle' : (pk + 1) + countPrim rest ≤ 1 := by
        rw [hcp] at hle
        omega
      obtain ⟨fss, vecF, hih⟩ :=
        ih (pk + 1) (if isV then vec + 1 else vec)
          (fun g hgm => hg g (List.mem_cons_of_mem f hgm)) hle'
      refine ⟨⟨f.name, dt, dimK, mlK, true, false⟩ :: fss, vecF, ?_⟩
      have harith : (pk + 1) + countPrim rest = pk + countPrim (f :: rest) := by
        rw [hcp]
        omega
      rw [← harith]
      simp only [mapFields, hout]
      rw [if_neg hnt, if_pos hp, if_neg (by omega : ¬ pk > 0),
        if_neg (not_not_intro (hprim hp)), hih]
    · have hp' : f.is_primary = false := by
        cases hb : f.is_primary
        · rfl
        · exact absurd hb hp
      have hcp : countPrim (f :: rest) = countPrim rest := by
        rw [countPrim, countPrim, List.filter_cons, hp']
        simp
      obtain ⟨fss, vecF, hih⟩ :=
        ih pk (if isV then vec + 1 else vec)
          (fun g hgm => hg g (List.mem_cons_of_mem f hgm)) (by rw [hcp] at hle; exact hle)
      refine ⟨⟨f.name, dt, dimK, mlK, false, false⟩ :: fss, vecF, ?_⟩
      rw [hcp]
      simp only [mapFields, hout]
      rw [if_neg hnt, if_neg hp, hih]

/-- **C8 (amended).**  For every field list accepted by the validator
in which every vector-marker-typed field also sets `is_vector = true`
(the counterexample shows this extra condition is required), the mapper
never fails with the unsupported-type error — every type in the
validator's closed set is assigned a concrete engine type. -/
theorem c8_map_never_unsupported (s : SchemaModel)
    (hval : validate_schema_definition s.fields = .ok ())
    (hflag : ∀ f ∈ s.fields, f.type = "vector<float>" → isVecFlag f = true) :
    ∀ fn t, map_schema_to_milvus s ≠ .error (.unsupportedType fn t) := by
  intro fn t
  unfold validate_schema_definition at hval
  by_cases hne : s.fields = []
  · rw [if_pos hne] at hval
    cases hval
  · rw [if_neg hne] at hval
    cases hl : validateLoop s.fields 0 [] 0 with
    | error e =>
      rw [hl] at hval
      cases hval
    | ok n =>
      rw [hl] at hval
      change (if n = 0 then Except.error ValErr.noPrimaryKey
        else if n > 1 then Except.error ValErr.multiplePrimaryKeys
        else Except.ok ()) = Except.ok () at hval
      obtain ⟨hn', hok⟩ := validateLoop_ok s.fields 0 [] 0 n hl
      by_cases h0 : n = 0
      · rw [if_pos h0] at hval
        cases hval
      · rw [if_neg h0] at hval
        by_cases hgt : n > 1
        · rw [if_pos hgt] at hval
          cases hval
        · have hcp1 : countPrim s.fields = 1 := by omega
          have hgood : ∀ f ∈ s.fields, GoodMapField f := fun f hf =>
            ⟨hok f hf, hflag f hf⟩
          obtain ⟨fss, vecF, hmf⟩ :=
            mapFields_ok_of_good s.name s.fields 0 0 hgood (by omega)
          unfold map_schema_to_milvus
          rw [if_neg hne]
          rw [hcp1] at hmf
          rw [hmf]
          intro hcontra
          simp at hcontra

/-- Witness for `c8_map_never_unsupported` at the `docs` schema. -/
theorem c8_map_never_unsupported_witness :
    map_schema_to_milvus docsSchema ≠ .error (.unsupportedType "vec" "vector<float>") :=
  c8_map_never_unsupported docsSchema rfl (by decide) "vec" "vector<float>"

/-! ### Ingestion-loop invariants -/

theorem countNonBlank_cons (l : SrcLine) (ls : List SrcLine) :
    countNonBlank (l :: ls) = nbOne l + countNonBlank ls := by
  cases l <;> simp [countNonBlank, nbOne, List.filter_cons] <;> omega

theorem lastLen_cons (a : List PyVal) (l : List (List PyVal)) (h : l ≠ []) :
    lastLen (a :: l) = lastLen l := by
  cases l with
  | nil => exact absurd rfl h
  | cons b t => rfl

theorem lastLen_replicate (k : Nat) :
    lastLen (List.replicate k ([] : List PyVal)) = 0 := by
  induction k with
  | zero => rfl
  | succ n ih =>
    cases n with
    | zero => rfl
    | succ m =>
      rw [List.replicate_succ, lastLen_cons _ _ (by simp)]
      exact ih

theorem lastLen_eq_of_all (cols : List (List PyVal)) (L : Nat) (hne : cols ≠ [])
    (h : ∀ c ∈ cols, c.length = L) : lastLen cols = L := by
  induction cols with
  | nil => exact absurd rfl hne
  | cons c t ih =>
    cases t with
    | nil => exact h c (by simp)
    | cons d u =>
      rw [lastLen_cons c _ (by simp)]
      exact ih (by simp) (fun x hx => h x (List.mem_cons_of_mem c hx))

/-- A successful engine insert means the batch was non-empty with all
columns of the reported common length. -/
theorem engineInsert_some (ok : Bool) (cols : List (List PyVal)) (n : Nat)
    (h : engineInsert ok cols = some n) :
    cols ≠ [] ∧ ∀ c ∈ cols, c.length = n := by
  unfold engineInsert at h
  split at h
  · rename_i hcond
    obtain ⟨hok, hne, hall⟩ := hcond
    cases h
    have hne' : cols ≠ [] := by
      intro he
      exact hne (by rw [he]; rfl)
    refine ⟨hne', ?_⟩
    intro c hc
    have := List.all_eq_true.mp hall c hc
    simpa using this
  · cases h

/-- Unfolding equation: the record lacks the first field. -/
theorem processFields_cons_missing (ln : Nat) (r : PyRecord) (mf : FieldSchema)
    (fs : List FieldSchema) (cols : List (List PyVal))
    (hlk : List.lookup mf.name r = none) :
    processFields ln r (mf :: fs) cols = (some (.missingField mf.name ln), cols) := by
  simp [processFields, hlk]

/-- Unfolding equation: the first field's value fails coercion. -/
theorem processFields_cons_err (ln : Nat) (r : PyRecord) (mf : FieldSchema)
    (fs : List FieldSchema) (cols : List (List PyVal)) (v : PyVal) (e : RecErr)
    (hlk : List.lookup mf.name r = some v) (hcv : coerceValue mf ln v = .error e) :
    processFields ln r (mf :: fs) cols = (some e, cols) := by
  simp [processFields, hlk, hcv]

/-- Unfolding equation: the first field's value coerces; its column
gets the append and the rest of the record is processed. -/
theorem processFields_cons_ok (ln : Nat) (r : PyRecord) (mf : FieldSchema)
    (fs : List FieldSchema) (cols : List (List PyVal)) (v w : PyVal)
    (hlk : List.lookup mf.name r = some v) (hcv : coerceValue mf ln v = .ok w) :
    processFields ln r (mf :: fs) cols =
      ((processFields ln r fs cols.tail).1,
       (cols.headD [] ++ [w]) :: (processFields ln r fs cols.tail).2) := by
  simp [processFields, hlk, hcv]

/-- `processFields` preserves the column count. -/
theorem processFields_length (ln : Nat) (r : PyRecord) :
    ∀ (fs : List FieldSchema) (cols : List (List PyVal)),
      cols.length = fs.length →
      (processFields ln r fs cols).2.length = fs.length := by
  intro fs
  induction fs with
  | nil =>
    intro cols h
    simpa [processFields] using h
  | cons mf fs ih =>
    intro cols h
    have htail : cols.tail.length = fs.length := by
      cases cols with
      | nil => simp at h
      | cons c cs => simpa using h
    simp only [processFields]
    split
    · simpa using h
    · rename_i v hlk
      split
      · simpa using h
      · simp [ih cols.tail htail]

/-- The last column grows by one exactly when the whole record was
accepted; on a failure it is untouched (even though earlier columns may
have grown). -/
theorem processFields_lastLen (ln : Nat) (r : PyRecord) :
    ∀ (fs : List FieldSchema) (cols : List (List PyVal)),
      cols.length = fs.length → fs ≠ [] →
      lastLen (processFields ln r fs cols).2 =
        lastLen cols + (if (processFields ln r fs cols).1 = none then 1 else 0) := by
  intro fs
  induction fs with
  | nil =>
    intro cols h hne
    exact absurd rfl hne
  | cons mf fs ih =>
    intro cols h hne
    cases cols with
    | nil => simp at h
    | cons c cs =>
      have hcs : cs.length = fs.length := by simpa using h
      cases hlk : List.lookup mf.name r with
      | none => simp [processFields_cons_missing ln r mf fs (c :: cs) hlk]
      | some v =>
        cases hcv : coerceValue mf ln v with
        | error e => simp [processFields_cons_err ln r mf fs (c :: cs) v e hlk hcv]
        | ok w =>
          rw [processFields_cons_ok ln r mf fs (c :: cs) v w hlk hcv]
          cases fs with
          | nil =>
            have hnil : cs = [] := by simpa using hcs
            subst hnil
            simp [processFields, lastLen]
          | cons mf2 fs2 =>
            have hcs_ne : cs ≠ [] := by
              intro he
              rw [he] at hcs
              simp at hcs
            have hlen2 := processFields_length ln r (mf2 :: fs2) cs hcs
            have hout_ne : (processFields ln r (mf2 :: fs2) cs).2 ≠ [] := by
              intro he
              rw [he] at hlen2
              simp at hlen2
            simp only [List.headD_cons, List.tail_cons]
            rw [lastLen_cons _ _ hout_ne, lastLen_cons c cs hcs_ne]
            exact ih cs hcs (by simp)

/-- After a raised insert failure the exception propagates: the step is
the identity. -/
theorem stepLine_fatal (fields : List FieldSchema) (oracle : Nat → Bool) (bs : Nat)
    (s : IngestState) (l : SrcLine) (h : s.fatal.isSome = true) :
    stepLine fields oracle bs s l = s := by
  unfold stepLine
  rw [if_pos h]

theorem foldl_fatal (fields : List FieldSchema) (oracle : Nat → Bool) (bs : Nat)
    (lines : List SrcLine) (s : IngestState) (h : s.fatal.isSome = true) :
    lines.foldl (stepLine fields oracle bs) s = s := by
  induction lines with
  | nil => rfl
  | cons l ls ih =>
    rw [List.foldl_cons, stepLine_fatal fields oracle bs s l h, ih]

theorem finishIngest_fatal (oracle : Nat → Bool) (s : IngestState)
    (h : s.fatal.isSome = true) : finishIngest oracle s = s := by
  unfold finishIngest
  rw [if_pos h]

/-- Step equation for a blank line. -/
theorem stepLine_blank (fields : List FieldSchema) (oracle : Nat → Bool) (bs : Nat)
    (s : IngestState) (hf : s.fatal = none) :
    stepLine fields oracle bs s .blank = { s with line_num := s.line_num + 1 } := by
  unfold stepLine
  rw [if_neg (by simp [hf])]

/-- Step equation for a line that fails JSON parsing: counted skipped,
loop continues. -/
theorem stepLine_malformed (fields : List FieldSchema) (oracle : Nat → Bool) (bs : Nat)
    (s : IngestState) (hf : s.fatal = none) :
    stepLine fields oracle bs s .malformed =
      { s with line_num := s.line_num + 1, skipped := s.skipped + 1 } := by
  unfold stepLine
  rw [if_neg (by simp [hf])]

/-- Step equation for a record that fails a field lookup or coercion:
counted skipped, loop continues, batch columns left exactly as
`processFields` left them (partial appends included). -/
theorem stepLine_record_fail (fields : List FieldSchema) (oracle : Nat → Bool) (bs : Nat)
    (s : IngestState) (r : PyRecord) (e : RecErr) (hf : s.fatal = none)
    (hpf : (processFields (s.line_num + 1) r fields s.batch_data).1 = some e) :
    stepLine fields oracle bs s (.record r) =
      { s with line_num := s.line_num + 1, skipped := s.skipped + 1,
               batch_data := (processFields (s.line_num + 1) r fields s.batch_data).2 } := by
  unfold stepLine
  rw [if_neg (by simp [hf])]
  dsimp only
  have hx : processFields (s.line_num + 1) r fields s.batch_data =
      (some e, (processFields (s.line_num + 1) r fields s.batch_data).2) := by
    rw [← hpf]
  rw [hx]

/-- One fatal-free step preserves the structural invariant and adds the
line's non-blank contribution to `total + skipped + batch_count`. -/
theorem stepLine_inv (fields : List FieldSchema) (oracle : Nat → Bool) (bs : Nat)
    (hfne : fields ≠ []) (s : IngestState) (l : SrcLine)
    (hf : s.fatal = none) (hinv : StInv fields s)
    (hf' : (stepLine fields oracle bs s l).fatal = none) :
    StInv fields (stepLine fields oracle bs s l) ∧
    tally (stepLine fields oracle bs s l) = tally s + nbOne l := by
  cases l with
  | blank =>
    rw [stepLine_blank fields oracle bs s hf]
    exact ⟨hinv, by simp [tally, nbOne]⟩
  | malformed =>
    rw [stepLine_malformed fields oracle bs s hf]
    refine ⟨hinv, ?_⟩
    simp [tally, nbOne]
    omega
  | record r =>
    cases hpf : (processFields (s.line_num + 1) r fields s.batch_data).1 with
    | some e =>
      rw [stepLine_record_fail fields oracle bs s r e hf hpf]
      have hlen := processFields_length (s.line_num + 1) r fields s.batch_data hinv.1
      have hll := processFields_lastLen (s.line_num + 1) r fields s.batch_data hinv.1 hfne
      rw [hpf] at hll
      rw [if_neg (by simp)] at hll
      refine ⟨⟨hlen, ?_⟩, ?_⟩
      · show lastLen (processFields (s.line_num + 1) r fields s.batch_data).2 = s.batch_count
        rw [hll, hinv.2]
        omega
      · simp [tally, nbOne]
        omega
    | none =>
      have hlen := processFields_length (s.line_num + 1) r fields s.batch_data hinv.1
      have hll := processFields_lastLen (s.line_num + 1) r fields s.batch_data hinv.1 hfne
      rw [hpf] at hll
      rw [if_pos rfl] at hll
      unfold stepLine at hf' ⊢
      rw [if_neg (by simp [hf])] at hf' ⊢
      dsimp only at hf' ⊢
      have hx : processFields (s.line_num + 1) r fields s.batch_data =
          (none, (processFields (s.line_num + 1) r fields s.batch_data).2) := by
        rw [← hpf]
      rw [hx] at hf' ⊢
      dsimp only at hf' ⊢
      by_cases hfull : s.batch_count + 1 ≥ bs
      · rw [if_pos hfull] at hf' ⊢
        cases hins : engineInsert (oracle s.insertCalls)
            (processFields (s.line_num + 1) r fields s.batch_data).2 with
        | some n =>
          dsimp only
          obtain ⟨hcne, hall⟩ := engineInsert_some _ _ n hins
          have hn : n = s.batch_count + 1 := by
            have hlast := lastLen_eq_of_all _ n hcne hall
            rw [hll, hinv.2] at hlast
            omega
          refine ⟨⟨?_, ?_⟩, ?_⟩
          · simp [emptyBatch]
          · simp [emptyBatch, lastLen_replicate]
          · simp [tally, nbOne]
            omega
        | none =>
          rw [hins] at hf'
          simp at hf'
      · rw [if_neg hfull]
        refine ⟨⟨hlen, ?_⟩, ?_⟩
        · show lastLen (processFields (s.line_num + 1) r fields s.batch_data).2 =
            s.batch_count + 1
          rw [hll, hinv.2]
        · simp [tally, nbOne]
          omega

/-- An error-free fold preserves the structural invariant and counts
each non-blank line once in `total + skipped + batch_count`. -/
theorem foldl_ingest (fields : List FieldSchema) (oracle : Nat → Bool) (bs : Nat)
    (hfne : fields ≠ []) :
    ∀ (lines : List SrcLine) (s : IngestState),
      (s.fatal = none → StInv fields s) →
      ((lines.foldl (stepLine fields oracle bs) s).fatal = none →
        StInv fields (lines.foldl (stepLine fields oracle bs) s) ∧
        tally (lines.foldl (stepLine fields oracle bs) s) = tally s + countNonBlank lines) := by
  intro lines
  induction lines with
  | nil =>
    intro s hs h
    exact ⟨hs h, by simp [countNonBlank]⟩
  | cons l ls ih =>
    intro s hs h
    rw [List.foldl_cons] at h ⊢
    cases hsf : s.fatal with
    | some fe =>
      rw [stepLine_fatal fields oracle bs s l (by rw [hsf]; rfl),
          foldl_fatal fields oracle bs ls s (by rw [hsf]; rfl)] at h ⊢
      rw [hsf] at h
      cases h
    | none =>
      cases hs1 : (stepLine fields oracle bs s l).fatal with
      | some fe =>
        rw [foldl_fatal fields oracle bs ls _ (by rw [hs1]; rfl)] at h ⊢
        rw [hs1] at h
        cases h
      | none =>
        obtain ⟨hinv1, htal1⟩ := stepLine_inv fields oracle bs hfne s l hsf (hs hsf) hs1
        obtain ⟨hinvF, htalF⟩ := ih (stepLine fields oracle bs s l) (fun _ => hinv1) h
        refine ⟨hinvF, ?_⟩
        rw [htalF, htal1, countNonBlank_cons]
        omega

/-- The trailing partial-batch insert completes the tally: on an
error-free finish, `total + skipped` equals the incoming tally. -/
theorem finishIngest_tally (fields : List FieldSchema) (oracle : Nat → Bool)
    (s : IngestState)
    (hs : s.fatal = none → StInv fields s)
    (h : (finishIngest oracle s).fatal = none) :
    (finishIngest oracle s).total_inserted + (finishIngest oracle s).skipped = tally s := by
  cases hsf : s.fatal with
  | some fe =>
    rw [finishIngest_fatal oracle s (by rw [hsf]; rfl)] at h
    rw [hsf] at h
    cases h
  | none =>
    obtain ⟨hlen, hlast⟩ := hs hsf
    unfold finishIngest at h ⊢
    rw [if_neg (by simp [hsf])] at h ⊢
    by_cases hbc : s.batch_count > 0
    · rw [if_pos hbc] at h ⊢
      cases hins : engineInsert (oracle s.insertCalls) s.batch_data with
      | some n =>
        dsimp only
        obtain ⟨hcne, hall⟩ := engineInsert_some _ _ n hins
        have hlast' := lastLen_eq_of_all _ n hcne hall
        rw [hlast] at hlast'
        simp [tally]
        omega
      | none =>
        rw [hins] at h
        simp at h
    · rw [if_neg hbc]
      simp [tally]
      omega

/-- **C3.**  Whenever an ingestion run completes without a fatal error
(over any extracted field list, engine behaviour, and batch size), the
committed count plus the skipped count equals the number of non-blank
lines of the stream; blank lines count toward neither. -/
theorem c3_committed_plus_skipped (fields : List FieldSchema) (oracle : Nat → Bool)
    (bs : Nat) (lines : List SrcLine) (hfne : fields ≠ [])
    (hdone : (insertData fields oracle bs lines).fatal = none) :
    (insertData fields oracle bs lines).total_inserted +
      (insertData fields oracle bs lines).skipped = countNonBlank lines := by
  unfold insertData at hdone ⊢
  have hinv0 : (initState fields.length).fatal = none →
      StInv fields (initState fields.length) := by
    intro _
    refine ⟨?_, ?_⟩
    · simp [initState, emptyBatch]
    · simp [initState, emptyBatch, lastLen_replicate]
  have hfoldf :
      (lines.foldl (stepLine fields oracle bs) (initState fields.length)).fatal = none := by
    by_contra hcon
    rw [finishIngest_fatal oracle _ (Option.ne_none_iff_isSome.mp hcon)] at hdone
    exact hcon hdone
  obtain ⟨hinvF, htalF⟩ :=
    foldl_ingest fields oracle bs hfne lines (initState fields.length) hinv0 hfoldf
  rw [finishIngest_tally fields oracle _ (fun _ => hinvF) hdone, htalF]
  simp [tally, initState]

/-- Witness for `c3_committed_plus_skipped`: one committed record, one
skipped malformed line, one blank line — 1 + 1 = 2 non-blank lines. -/
theorem c3_committed_plus_skipped_witness :
    (insertData (fieldsToExtract docsCS) (fun _ => true) 1
        [exLine1, SrcLine.blank, SrcLine.malformed]).total_inserted +
      (insertData (fieldsToExtract docsCS) (fun _ => true) 1
        [exLine1, SrcLine.blank, SrcLine.malformed]).skipped =
      countNonBlank [exLine1, SrcLine.blank, SrcLine.malformed] :=
  c3_committed_plus_skipped (fieldsToExtract docsCS) (fun _ => true) 1
    [exLine1, SrcLine.blank, SrcLine.malformed] (by decide) rfl

/-- Every step preserves the engine-call accounting: the total equals
the sum of the committed batch counts, and the number of insert calls
exceeds the number of commits exactly when a call failed fatally. -/
theorem stepLine_callInv (fields : List FieldSchema) (oracle : Nat → Bool) (bs : Nat)
    (s : IngestState) (l : SrcLine) (hci : CallInv s) :
    CallInv (stepLine fields oracle bs s l) := by
  cases hsf : s.fatal with
  | some fe =>
    rw [stepLine_fatal fields oracle bs s l (by rw [hsf]; rfl)]
    exact hci
  | none =>
    obtain ⟨htot, hcalls⟩ := hci
    rw [hsf] at hcalls
    simp only [Option.isSome_none, Bool.false_eq_true, if_false, Nat.add_zero] at hcalls
    cases l with
    | blank =>
      rw [stepLine_blank fields oracle bs s hsf]
      exact ⟨htot, by simp [hsf, hcalls]⟩
    | malformed =>
      rw [stepLine_malformed fields oracle bs s hsf]
      exact ⟨htot, by simp [hsf, hcalls]⟩
    | record r =>
      cases hpf : (processFields (s.line_num + 1) r fields s.batch_data).1 with
      | some e =>
        rw [stepLine_record_fail fields oracle bs s r e hsf hpf]
        exact ⟨htot, by simp [hsf, hcalls]⟩
      | none =>
        unfold stepLine
        rw [if_neg (by simp [hsf])]
        dsimp only
        have hx : processFields (s.line_num + 1) r fields s.batch_data =
            (none, (processFields (s.line_num + 1) r fields s.batch_data).2) := by
          rw [← hpf]
        rw [hx]
        dsimp only
        by_cases hfull : s.batch_count + 1 ≥ bs
        · rw [if_pos hfull]
          cases hins : engineInsert (oracle s.insertCalls)
              (processFields (s.line_num + 1) r fields s.batch_data).2 with
          | some n =>
            dsimp only
            refine ⟨?_, ?_⟩
            · simp [htot]
            · simp [hsf, hcalls]
          | none =>
            dsimp only
            refine ⟨htot, ?_⟩
            simp [hcalls]
        · rw [if_neg hfull]
          exact ⟨htot, by simp [hsf, hcalls]⟩

theorem foldl_callInv (fields : List FieldSchema) (oracle : Nat → Bool) (bs : Nat)
    (lines : List SrcLine) (s : IngestState) (hci : CallInv s) :
    CallInv (lines.foldl (stepLine fields oracle bs) s) := by
  induction lines generalizing s with
  | nil => exact hci
  | cons l ls ih =>
    rw [List.foldl_cons]
    exact ih _ (stepLine_callInv fields oracle bs s l hci)

theorem finishIngest_callInv (oracle : Nat → Bool) (s : IngestState)
    (hci : CallInv s) : CallInv (finishIngest oracle s) := by
  cases hsf : s.fatal with
  | some fe =>
    rw [finishIngest_fatal oracle s (by rw [hsf]; rfl)]
    exact hci
  | none =>
    obtain ⟨htot, hcalls⟩ := hci
    rw [hsf] at hcalls
    simp only [Option.isSome_none, Bool.false_eq_true, if_false, Nat.add_zero] at hcalls
    unfold finishIngest
    rw [if_neg (by simp [hsf])]
    by_cases hbc : s.batch_count > 0
    · rw [if_pos hbc]
      cases hins : engineInsert (oracle s.insertCalls) s.batch_data with
      | some n =>
        dsimp only
        exact ⟨by simp [htot], by simp [hsf, hcalls]⟩
      | none =>
        dsimp only
        exact ⟨htot, by simp [hcalls]⟩
    · rw [if_neg hbc]
      exact ⟨htot, by simp [hsf, hcalls]⟩

/-- The whole run satisfies the engine-call accounting invariant. -/
theorem insertData_callInv (fields : List FieldSchema) (oracle : Nat → Bool)
    (bs : Nat) (lines : List SrcLine) : CallInv (insertData fields oracle bs lines) :=
  finishIngest_callInv oracle _
    (foldl_callInv fields oracle bs lines (initState fields.length)
      ⟨rfl, by simp [initState, CallInv]⟩)

/-- **C4.**  Record-level failures skip only that record and the run
continues (the fold over the remaining lines proceeds from the state
with `skipped` incremented — and, transparently, with whatever partial
appends `processFields` already made); a JSON-parse failure likewise
skips and continues with the batch untouched.  An engine insert failure
aborts the whole run: exactly one call more than the number of
committed batches was made (no retry), and the total equals the sum of
the previously committed batch counts (previously committed data is
preserved). -/
theorem c4_skip_vs_abort (fields : List FieldSchema) (oracle : Nat → Bool) (bs : Nat) :
    (∀ (s : IngestState) (rest : List SrcLine), s.fatal = none →
      (SrcLine.malformed :: rest).foldl (stepLine fields oracle bs) s =
        rest.foldl (stepLine fields oracle bs)
          { s with line_num := s.line_num + 1, skipped := s.skipped + 1 }) ∧
    (∀ (s : IngestState) (rest : List SrcLine) (r : PyRecord) (e : RecErr),
      s.fatal = none →
      (processFields (s.line_num + 1) r fields s.batch_data).1 = some e →
      (SrcLine.record r :: rest).foldl (stepLine fields oracle bs) s =
        rest.foldl (stepLine fields oracle bs)
          { s with line_num := s.line_num + 1, skipped := s.skipped + 1,
                   batch_data := (processFields (s.line_num + 1) r fields s.batch_data).2 }) ∧
    (∀ (lines : List SrcLine) (fe : FatalErr),
      (insertData fields oracle bs lines).fatal = some fe →
      (insertData fields oracle bs lines).insertCalls =
        (insertData fields oracle bs lines).committed.length + 1 ∧
      (insertData fields oracle bs lines).total_inserted =
        (insertData fields oracle bs lines).committed.sum) := by
  refine ⟨?_, ?_, ?_⟩
  · intro s rest hf
    rw [List.foldl_cons, stepLine_malformed fields oracle bs s hf]
  · intro s rest r e hf hpf
    rw [List.foldl_cons, stepLine_record_fail fields oracle bs s r e hf hpf]
  · intro lines fe hfe
    obtain ⟨htot, hcalls⟩ := insertData_callInv fields oracle bs lines
    rw [hfe] at hcalls
    simp only [Option.isSome_some, if_true] at hcalls
    exact ⟨hcalls, htot⟩

/-- Witness for `c4_skip_vs_abort`: a malformed line skips and
continues; a record with a non-list vector value skips and continues;
an engine-side insert failure on the first batch aborts with one call
and zero commits. -/
theorem c4_skip_vs_abort_witness :
    ((SrcLine.malformed :: ([] : List SrcLine)).foldl
        (stepLine (fieldsToExtract docsCS) (fun _ => true) 1000) (initState 2) =
      ([] : List SrcLine).foldl (stepLine (fieldsToExtract docsCS) (fun _ => true) 1000)
        { initState 2 with line_num := (initState 2).line_num + 1,
                           skipped := (initState 2).skipped + 1 }) ∧
    ((SrcLine.record [("id", .vint 2), ("vec", .vstr "oops")] :: ([] : List SrcLine)).foldl
        (stepLine (fieldsToExtract docsCS) (fun _ => true) 1000) (initState 2) =
      ([] : List SrcLine).foldl (stepLine (fieldsToExtract docsCS) (fun _ => true) 1000)
        { initState 2 with
            line_num := (initState 2).line_num + 1,
            skipped := (initState 2).skipped + 1,
            batch_data := (processFields ((initState 2).line_num + 1)
              [("id", .vint 2), ("vec", .vstr "oops")] (fieldsToExtract docsCS)
              (initState 2).batch_data).2 }) ∧
    ((insertData (fieldsToExtract docsCS) (fun _ => false) 1 [exLine1]).insertCalls =
      (insertData (fieldsToExtract docsCS) (fun _ => false) 1 [exLine1]).committed.length + 1 ∧
     (insertData (fieldsToExtract docsCS) (fun _ => false) 1 [exLine1]).total_inserted =
      (insertData (fieldsToExtract docsCS) (fun _ => false) 1 [exLine1]).committed.sum) :=
  ⟨(c4_skip_vs_abort (fieldsToExtract docsCS) (fun _ => true) 1000).1 (initState 2) [] rfl,
   (c4_skip_vs_abort (fieldsToExtract docsCS) (fun _ => true) 1000).2.1 (initState 2) []
     [("id", .vint 2), ("vec", .vstr "oops")] (.vectorNotList "vec" 1) rfl rfl,
   (c4_skip_vs_abort (fieldsToExtract docsCS) (fun _ => false) 1).2.2 [exLine1]
     (.insertFailed 1) rfl⟩

end VDB
